import Mathlib

/-!
Verification of the elections-relayer service: a shallow embedding of its
leaf/nullifier derivation, Merkle accumulator construction (merkletreejs with
sortPairs), root reconciliation, and the vote and admin-sync request handlers,
together with theorems about the properties the design document states.

Byte strings are modelled as lists of naturals (each entry one byte); the
keccak256 hash is an arbitrary function parameter, since every property at
stake is structural in the hash.
-/

namespace ElectionsRelayer

/-- A byte string (Buffer in the source). -/
abbrev Bytes := List Nat

/-- Lexicographic byte comparison, as Buffer.compare does: byte by byte,
a strict prefix is smaller. -/
def bufLt : Bytes → Bytes → Bool
  | _, [] => false
  | [], _ :: _ => true
  | a :: as, b :: bs => a < b || (a == b && bufLt as bs)

/-- Pairwise hash combine with the two children sorted by byte value, the
sortPairs behaviour of merkletreejs used in computeGlobalTree. -/
def combinePair (keccak : Bytes → Bytes) (a b : Bytes) : Bytes :=
  if bufLt a b then keccak (a ++ b) else keccak (b ++ a)

/-- One level of the tree build loop of merkletreejs createHashes: adjacent
pairs are combined; with an odd node count the last node is carried up
unhashed (duplicateOdd is false). -/
def levelUp (keccak : Bytes → Bytes) : List Bytes → List Bytes
  | [] => []
  | [x] => [x]
  | a :: b :: rest => combinePair keccak a b :: levelUp keccak rest

/-- The while loop of createHashes, reducing levels until one node remains;
the loop is bounded by the node count, which strictly dominates the number of
iterations. getRoot returns the remaining node, or the empty buffer for an
empty tree. -/
def rootLevels (keccak : Bytes → Bytes) : Nat → List Bytes → Bytes
  | 0, ns => ns.headD []
  | fuel + 1, ns =>
    if ns.length ≤ 1 then ns.headD []
    else rootLevels keccak fuel (levelUp keccak ns)

/-- tree.getRoot for the tree built over the given leaves. -/
def merkleRoot (keccak : Bytes → Bytes) (leaves : List Bytes) : Bytes :=
  rootLevels keccak leaves.length leaves

/-- The getProof layer loop of merkletreejs: at each level the pair sibling of
the tracked index is appended (nothing when the index is an odd carried-up
last node), and the index halves. -/
def proofLevels (keccak : Bytes → Bytes) : Nat → List Bytes → Nat → List Bytes
  | 0, _, _ => []
  | fuel + 1, ns, i =>
    if ns.length ≤ 1 then []
    else
      (if i % 2 = 1 then [ns.getD (i - 1) []]
       else if i + 1 < ns.length then [ns.getD (i + 1) []] else []) ++
      proofLevels keccak fuel (levelUp keccak ns) (i / 2)

/-- Inclusion proof for the leaf at a given index. -/
def getProofIdx (keccak : Bytes → Bytes) (leaves : List Bytes) (i : Nat) : List Bytes :=
  proofLevels keccak leaves.length leaves i

/-- tree.getHexProof(leaf): the proof for the first occurrence of the leaf. -/
def getHexProof (keccak : Bytes → Bytes) (leaves : List Bytes) (leaf : Bytes) : List Bytes :=
  getProofIdx keccak leaves (leaves.indexOf leaf)

/-- Folding a leaf through an inclusion proof with sorted-pair hashing, the
verify procedure matching the sortPairs tree. -/
def verifyProof (keccak : Bytes → Bytes) (leaf : Bytes) (proofSibs : List Bytes) : Bytes :=
  proofSibs.foldl (combinePair keccak) leaf

/-- UTF-8 encoding of one code point (ethers toUtf8Bytes, per character). -/
def utf8EncodeCharNat (c : Nat) : Bytes :=
  if c < 128 then [c]
  else if c < 2048 then [192 + c / 64, 128 + c % 64]
  else if c < 65536 then [224 + c / 4096, 128 + c / 64 % 64, 128 + c % 64]
  else [240 + c / 262144, 128 + c / 4096 % 64, 128 + c / 64 % 64, 128 + c % 64]

/-- ethers.utils.toUtf8Bytes. -/
def utf8Bytes (s : String) : Bytes :=
  (s.data.map (fun c => utf8EncodeCharNat c.toNat)).flatten

/-- Big-endian 32-byte encoding of a uint256, the solidity abi encoding used
by solidityKeccak256 for a uint256 argument. -/
def uint256be (n : Nat) : Bytes :=
  (List.range 32).map (fun i => n / 256 ^ (31 - i) % 256)

/-- dniHash = keccak256(toUtf8Bytes(dni)). -/
def dniHash (keccak : Bytes → Bytes) (dni : String) : Bytes :=
  keccak (utf8Bytes dni)

/-- leaf = solidityKeccak256([bytes32, bytes32], [salt, dniHash]). -/
def leafOf (keccak : Bytes → Bytes) (salt : Bytes) (dni : String) : Bytes :=
  keccak (salt ++ dniHash keccak dni)

/-- baseNull = solidityKeccak256([bytes32, bytes32], [salt, dniHash]). -/
def baseNull (keccak : Bytes → Bytes) (salt : Bytes) (dni : String) : Bytes :=
  keccak (salt ++ dniHash keccak dni)

/-- nullifier = solidityKeccak256([uint256, bytes32], [electionId, baseNull]). -/
def nullifierOf (keccak : Bytes → Bytes) (eId : Nat) (salt : Bytes) (dni : String) : Bytes :=
  keccak (uint256be eId ++ baseNull keccak salt dni)

/-- Modelled from the spec: the formula hash(electionId, hash(salt,
hash(identityKey))) given for the Nullifier in the data model, stated
directly, to be compared with the derivation the handlers perform. -/
def nullifierSpec (keccak : Bytes → Bytes) (eId : Nat) (salt : Bytes) (dni : String) : Bytes :=
  keccak (uint256be eId ++ keccak (salt ++ keccak (utf8Bytes dni)))

/-- The nullifier an observer can compute from the public leaf and the
election id alone. -/
def nullifierFromLeaf (keccak : Bytes → Bytes) (eId : Nat) (leaf : Bytes) : Bytes :=
  keccak (uint256be eId ++ leaf)

/-- Result of computeGlobalTree: either the registry fetch threw, or the tree
was built over the fetched leaves. There is no other failure path. -/
inductive BuildResult where
  | fetchFailed
  | built (leaves : List Bytes) (root : Bytes)
deriving DecidableEq

/-- computeGlobalTree: fetch the eligibility leaves from the registry and
build the sortPairs Merkle tree over them; the fetch is the only fallible
step. -/
def computeGlobalTree (keccak : Bytes → Bytes) (fetched : Option (List Bytes)) : BuildResult :=
  match fetched with
  | none => .fetchFailed
  | some leaves => .built leaves (merkleRoot keccak leaves)

/-- The constant zero bytes32 (ethers.constants.HashZero). -/
def zero32 : Bytes := List.replicate 32 0

/-- The registry verify response body: a match flag and an optional salt. -/
structure VerifyResp where
  matched : Bool
  salt : Option Bytes
deriving DecidableEq

/-- The inputs and external state a vote request handler of the merkle server
variant observes: request fields, contract deployment, registry responses
(none models a thrown fetch), the current election id, the contract call
surface detected from the abi, and the chain read views. -/
structure VoteEnv where
  dni : String
  fingerprint : String
  candidateId : Option Nat
  contractDeployed : Bool
  verifyResp : Option VerifyResp
  leavesResp : Option (List Bytes)
  electionId : Nat
  hasMerkleRootOf : Bool
  hasSetRoot : Bool
  hasHasVoted : Bool
  hasVoteWithNullifier : Bool
  merkleRootOf : Nat → Bytes
  hasVoted : Nat → Bytes → Bool

/-- Terminal outcomes of a vote request, one per return of the handler. -/
inductive VoteOutcome where
  | inputError
  | noContract
  | registryError
  | authFailure
  | missingSalt
  | leavesError
  | notEligible
  | noActiveElection
  | noMerkleSupport
  | rootNotSet
  | rootMismatch
  | duplicateVote
  | unsupportedVoteFn
  | submitted (nullifier : Bytes) (candidateId : Nat) (proofSibs : List Bytes) (leaf : Bytes)
  | submittedSimple (nullifier : Bytes) (candidateId : Nat)
deriving DecidableEq

/-- What one run of a handler did: its outcome, whether the registry verify
endpoint was reached, whether an inclusion proof was generated, and how many
state-mutating ledger transactions were sent. -/
structure HandlerRun where
  outcome : VoteOutcome
  registryCalled : Bool
  proofBuilt : Bool
  chainWrites : Nat
deriving DecidableEq

/-- Whether an outcome is a ledger submission. -/
def isSubmission : VoteOutcome → Bool
  | .submitted _ _ _ _ => true
  | .submittedSimple _ _ => true
  | _ => false

/-- The on-chain root the handler compares against: merkleRootOf(electionId)
when that getter exists, else HashZero. -/
def onchainRootView (env : VoteEnv) : Bytes :=
  if env.hasMerkleRootOf then env.merkleRootOf env.electionId else zero32

/-- The merkle server variant handler for POST /vote/:candidateId: input
validation, deployed-contract sanity check, registry verification, global
tree build with leaf and proof, membership check, active election check,
nullifier derivation, merkle support and root reconciliation checks,
optional duplicate pre-check, then the voteWithNullifier transaction. -/
def voteHandler (keccak : Bytes → Bytes) (env : VoteEnv) : HandlerRun :=
  match env.candidateId with
  | none => ⟨.inputError, false, false, 0⟩
  | some cid =>
    if env.dni = "" || env.fingerprint = "" then ⟨.inputError, false, false, 0⟩
    else if !env.contractDeployed then ⟨.noContract, false, false, 0⟩
    else
      match env.verifyResp with
      | none => ⟨.registryError, true, false, 0⟩
      | some v =>
        if !v.matched then ⟨.authFailure, true, false, 0⟩
        else
          match v.salt with
          | none => ⟨.missingSalt, true, false, 0⟩
          | some salt =>
            match env.leavesResp with
            | none => ⟨.leavesError, true, false, 0⟩
            | some leaves =>
              if !(leaves.contains (leafOf keccak salt env.dni)) then
                ⟨.notEligible, true, false, 0⟩
              else if env.electionId = 0 then ⟨.noActiveElection, true, true, 0⟩
              else if !env.hasMerkleRootOf && !env.hasSetRoot then
                ⟨.noMerkleSupport, true, true, 0⟩
              else if onchainRootView env = zero32 then ⟨.rootNotSet, true, true, 0⟩
              else if onchainRootView env ≠ merkleRoot keccak leaves then
                ⟨.rootMismatch, true, true, 0⟩
              else if env.hasHasVoted &&
                  env.hasVoted env.electionId (nullifierOf keccak env.electionId salt env.dni) then
                ⟨.duplicateVote, true, true, 0⟩
              else if !env.hasVoteWithNullifier then ⟨.unsupportedVoteFn, true, true, 0⟩
              else
                ⟨.submitted (nullifierOf keccak env.electionId salt env.dni) cid
                    (getHexProof keccak leaves (leafOf keccak salt env.dni))
                    (leafOf keccak salt env.dni), true, true, 1⟩

/-- The inputs and external state the simple (no merkle) server variant
observes for POST /vote. -/
structure SimpleVoteEnv where
  dni : String
  fingerprint : String
  candidateId : Option Nat
  contractDeployed : Bool
  verifyResp : Option VerifyResp
  electionId : Nat
  hasHasVoted : Bool
  hasVoted : Nat → Bytes → Bool
  hasVoteSimple : Bool

/-- The simple server variant handler for POST /vote: input validation,
deployed-contract check, registry verification, nullifier derivation,
optional duplicate pre-check, then the two-argument voteWithNullifier
transaction. There is no eligibility tree and no root reconciliation. -/
def voteHandlerSimple (keccak : Bytes → Bytes) (env : SimpleVoteEnv) : HandlerRun :=
  match env.candidateId with
  | none => ⟨.inputError, false, false, 0⟩
  | some cid =>
    if env.dni = "" || env.fingerprint = "" then ⟨.inputError, false, false, 0⟩
    else if !env.contractDeployed then ⟨.noContract, false, false, 0⟩
    else
      match env.verifyResp with
      | none => ⟨.registryError, true, false, 0⟩
      | some v =>
        if !v.matched then ⟨.authFailure, true, false, 0⟩
        else
          match v.salt with
          | none => ⟨.missingSalt, true, false, 0⟩
          | some salt =>
            if env.hasHasVoted &&
                env.hasVoted env.electionId (nullifierOf keccak env.electionId salt env.dni) then
              ⟨.duplicateVote, true, false, 0⟩
            else if !env.hasVoteSimple then ⟨.unsupportedVoteFn, true, false, 0⟩
            else ⟨.submittedSimple (nullifierOf keccak env.electionId salt env.dni) cid, true, false, 1⟩

/-- The inputs and external state the admin sync-root handlers observe. -/
structure SyncEnv where
  contractDeployed : Bool
  electionId : Nat
  leavesResp : Option (List Bytes)
  hasSetRoot : Bool
  merkleRootOf : Nat → Bytes
  rnpRoot : Option Bytes

/-- Terminal outcomes of an admin sync-root request. -/
inductive SyncOutcome where
  | noContract
  | noElection
  | fetchError
  | unsupportedSetRoot
  | noRootFromRegistry
  | published (root : Bytes)
  | noopAlreadySynced (root : Bytes)
deriving DecidableEq

/-- The merkle server variant of POST /admin/sync-root: recompute the global
root and unconditionally send setCurrentElectionMerkleRoot with it. The
result pairs the outcome with the number of state-mutating transactions. -/
def syncRootMerkle (keccak : Bytes → Bytes) (env : SyncEnv) : SyncOutcome × Nat :=
  if !env.contractDeployed then (.noContract, 0)
  else if env.electionId = 0 then (.noElection, 0)
  else
    match env.leavesResp with
    | none => (.fetchError, 0)
    | some leaves =>
      if !env.hasSetRoot then (.unsupportedSetRoot, 0)
      else (.published (merkleRoot keccak leaves), 1)

/-- The index.js variant of POST /admin/sync-root: fetch the root from the
registry, compare it with the persisted on-chain root, publish only on
inequality and otherwise answer synced:false without any transaction. -/
def syncRootIndex (env : SyncEnv) : SyncOutcome × Nat :=
  if env.electionId = 0 then (.noElection, 0)
  else
    match env.rnpRoot with
    | none => (.noRootFromRegistry, 0)
    | some root =>
      if env.merkleRootOf env.electionId ≠ root then (.published root, 1)
      else (.noopAlreadySynced root, 0)

/-- The inputs and external state the index.js POST /vote handler observes:
the client supplies candidateId, leaf, proof and optionally electionId and a
root; the relayer never sees identity data. -/
structure IdxVoteEnv where
  candidateId : Option Nat
  leaf : Option Bytes
  proofSibs : Option (List Bytes)
  electionIdBody : Option Nat
  rootBody : Option Bytes
  electionId : Nat
  merkleRootOf : Nat → Bytes

/-- The index.js POST /vote handler: validate the body, compare the optional
body election id against the current one, compare the optional body root
against the persisted root, then call voteWithNullifier with HashZero as the
nullifier argument. The result pairs the outcome with the number of
state-mutating transactions. -/
def idxVoteHandler (env : IdxVoteEnv) : VoteOutcome × Nat :=
  match env.candidateId with
  | none => (.inputError, 0)
  | some cid =>
    match env.leaf, env.proofSibs with
    | some leaf, some proofSibs =>
      if (match env.electionIdBody with
          | some e => e != 0 && e != env.electionId
          | none => false) then (.inputError, 0)
      else if (match env.rootBody with
          | some r => r != env.merkleRootOf env.electionId
          | none => false) then (.rootMismatch, 0)
      else (.submitted zero32 cid proofSibs leaf, 1)
    | _, _ => (.inputError, 0)

/-- A small concrete stand-in hash, used only to evaluate the development on
explicit inputs; every theorem is proved for an arbitrary hash. -/
def kToy (l : Bytes) : Bytes := [l.foldl (fun a b => (a * 31 + b) % 251) 7]

/-- A concrete salt. -/
def saltT : Bytes := [5]

/-- The leaf of the concrete voter with identity key ab and salt saltT. -/
def leafT : Bytes := leafOf kToy saltT "ab"

/-- A concrete eligibility set containing leafT. -/
def leavesT : List Bytes := [leafT, [9], [23]]

/-- The accumulator root of leavesT under kToy. -/
def rootT : Bytes := merkleRoot kToy leavesT

/-- A concrete vote environment in which every step succeeds. Fields: dni,
fingerprint, candidateId, contractDeployed, verifyResp, leavesResp,
electionId, hasMerkleRootOf, hasSetRoot, hasHasVoted, hasVoteWithNullifier,
merkleRootOf, hasVoted. -/
def envOK : VoteEnv :=
  ⟨"ab", "f", some 2, true, some ⟨true, some saltT⟩, some leavesT, 1,
    true, true, false, true, fun _ => rootT, fun _ _ => false⟩

/-- envOK except that the registry answers match:false with no salt. -/
def envAuthFail : VoteEnv :=
  ⟨"ab", "f", some 2, true, some ⟨false, none⟩, some leavesT, 1,
    true, true, false, true, fun _ => rootT, fun _ _ => false⟩

/-- envOK except that the identity key is empty. -/
def envEmptyDni : VoteEnv :=
  ⟨"", "f", some 2, true, some ⟨true, some saltT⟩, some leavesT, 1,
    true, true, false, true, fun _ => rootT, fun _ _ => false⟩

/-- envOK except that the contract exposes no proof-carrying
voteWithNullifier signature. -/
def envNoVoteFn : VoteEnv :=
  ⟨"ab", "f", some 2, true, some ⟨true, some saltT⟩, some leavesT, 1,
    true, true, false, false, fun _ => rootT, fun _ _ => false⟩

/-- A concrete environment for the simple variant in which every step
succeeds. Fields: dni, fingerprint, candidateId, contractDeployed,
verifyResp, electionId, hasHasVoted, hasVoted, hasVoteSimple. -/
def envSimpleOK : SimpleVoteEnv :=
  ⟨"ab", "f", some 3, true, some ⟨true, some saltT⟩, 1, false, fun _ _ => false, true⟩

/-- envSimpleOK except that the registry answers match:false. -/
def envSimpleAuthFail : SimpleVoteEnv :=
  ⟨"ab", "f", some 3, true, some ⟨false, none⟩, 1, false, fun _ _ => false, true⟩

/-- envSimpleOK except that the identity key is empty. -/
def envSimpleEmptyDni : SimpleVoteEnv :=
  ⟨"", "f", some 3, true, some ⟨true, some saltT⟩, 1, false, fun _ _ => false, true⟩

/-- A concrete sync environment whose persisted on-chain root already equals
the computed root rootT, and whose registry also reports rootT. Fields:
contractDeployed, electionId, leavesResp, hasSetRoot, merkleRootOf,
rnpRoot. -/
def envSyncEq : SyncEnv := ⟨true, 1, some leavesT, true, fun _ => rootT, some rootT⟩

/-- A concrete sync environment whose persisted on-chain root (the empty
buffer) differs from the registry root rootT. -/
def envSyncNe : SyncEnv := ⟨true, 1, some leavesT, true, fun _ => [], some rootT⟩

/-- A concrete index.js vote environment with a consistent body. Fields:
candidateId, leaf, proofSibs, electionIdBody, rootBody, electionId,
merkleRootOf. -/
def envIdx : IdxVoteEnv := ⟨some 4, some leafT, some [[9]], some 1, some rootT, 1, fun _ => rootT⟩

theorem bufLt_asymm : ∀ (a b : Bytes), bufLt a b = true → bufLt b a = false
  | _, [], h => by simp [bufLt] at h
  | [], _ :: _, _ => by simp [bufLt]
  | a :: as, b :: bs, h => by
    simp only [bufLt, Bool.or_eq_true, decide_eq_true_eq, Bool.and_eq_true, beq_iff_eq] at h
    simp only [bufLt, Bool.or_eq_false_iff, decide_eq_false_iff_not, Bool.and_eq_false_iff,
      beq_eq_false_iff_ne, ne_eq]
    rcases h with h | ⟨rfl, h⟩
    · exact ⟨by omega, Or.inl (by omega)⟩
    · exact ⟨by omega, Or.inr (bufLt_asymm as bs h)⟩

theorem bufLt_conn : ∀ (a b : Bytes), bufLt a b = false → bufLt b a = false → a = b
  | [], [], _, _ => rfl
  | [], _ :: _, h, _ => by simp [bufLt] at h
  | _ :: _, [], _, h => by simp [bufLt] at h
  | a :: as, b :: bs, h, h2 => by
    simp only [bufLt, Bool.or_eq_false_iff, decide_eq_false_iff_not, Bool.and_eq_false_iff,
      beq_eq_false_iff_ne, ne_eq] at h h2
    have hab : a = b := by omega
    subst hab
    have : as = bs := by
      rcases h.2 with h3 | h3
      · exact absurd rfl h3
      · rcases h2.2 with h4 | h4
        · exact absurd rfl h4
        · exact bufLt_conn as bs h3 h4
    rw [this]

theorem combinePair_comm (keccak : Bytes → Bytes) (a b : Bytes) :
    combinePair keccak a b = combinePair keccak b a := by
  unfold combinePair
  by_cases h : bufLt a b = true
  · rw [if_pos h, if_neg (by rw [bufLt_asymm a b h]; simp)]
  · have h' : bufLt a b = false := by simpa using h
    rw [if_neg (by rw [h']; simp)]
    by_cases h2 : bufLt b a = true
    · rw [if_pos h2]
    · have h2' : bufLt b a = false := by simpa using h2
      rw [if_neg (by rw [h2']; simp), bufLt_conn a b h' h2']

theorem levelUp_length (keccak : Bytes → Bytes) :
    ∀ ns : List Bytes, (levelUp keccak ns).length = (ns.length + 1) / 2
  | [] => by simp [levelUp]
  | [x] => by simp [levelUp]
  | a :: b :: rest => by
    simp only [levelUp, List.length_cons]
    rw [levelUp_length keccak rest]
    omega

theorem levelUp_getD (keccak : Bytes → Bytes) :
    ∀ (ns : List Bytes) (j : Nat),
      (levelUp keccak ns).getD j [] =
        if 2 * j + 1 < ns.length then
          combinePair keccak (ns.getD (2 * j) []) (ns.getD (2 * j + 1) [])
        else ns.getD (2 * j) []
  | [], j => by simp [levelUp]
  | [x], 0 => by simp [levelUp]
  | [x], j + 1 => by
    simp only [levelUp, List.length_singleton]
    rw [if_neg (by omega)]
    have h : 2 * (j + 1) = 2 * j + 1 + 1 := by omega
    rw [h]
    simp
  | a :: b :: rest, 0 => by simp [levelUp]
  | a :: b :: rest, j + 1 => by
    have ih := levelUp_getD keccak rest j
    have l1 : (levelUp keccak (a :: b :: rest)).getD (j + 1) [] =
        (levelUp keccak rest).getD j [] := by
      simp only [levelUp, List.getD_cons_succ]
    have e2 : (a :: b :: rest).getD (2 * (j + 1) + 1) [] = rest.getD (2 * j + 1) [] := by
      rw [show 2 * (j + 1) + 1 = (2 * j + 1) + 1 + 1 by omega]
      simp only [List.getD_cons_succ]
    have e1 : (a :: b :: rest).getD (2 * (j + 1)) [] = rest.getD (2 * j) [] := by
      rw [show 2 * (j + 1) = (2 * j) + 1 + 1 by omega]
      simp only [List.getD_cons_succ]
    rw [l1, ih, e2, e1, List.length_cons, List.length_cons]
    by_cases h : 2 * j + 1 < rest.length
    · rw [if_pos h, if_pos (by omega)]
    · rw [if_neg h, if_neg (by omega)]

theorem proofLevels_root (keccak : Bytes → Bytes) :
    ∀ (fuel : Nat) (ns : List Bytes) (i : Nat), ns.length ≤ fuel + 1 → i < ns.length →
      verifyProof keccak (ns.getD i []) (proofLevels keccak fuel ns i) =
        rootLevels keccak fuel ns := by
  intro fuel
  induction fuel with
  | zero =>
    intro ns i hlen hi
    obtain ⟨x, rfl⟩ : ∃ x, ns = [x] := List.length_eq_one.1 (by omega)
    obtain rfl : i = 0 := by simpa using hi
    simp [proofLevels, rootLevels, verifyProof]
  | succ fuel ih =>
    intro ns i hlen hi
    by_cases h1 : ns.length ≤ 1
    · obtain ⟨x, rfl⟩ : ∃ x, ns = [x] := List.length_eq_one.1 (by omega)
      obtain rfl : i = 0 := by simpa using hi
      simp [proofLevels, rootLevels, verifyProof]
    · simp only [proofLevels, rootLevels, if_neg h1]
      have hstep :
          verifyProof keccak (ns.getD i [])
            ((if i % 2 = 1 then [ns.getD (i - 1) []]
              else if i + 1 < ns.length then [ns.getD (i + 1) []] else []) ++
              proofLevels keccak fuel (levelUp keccak ns) (i / 2)) =
          verifyProof keccak ((levelUp keccak ns).getD (i / 2) [])
            (proofLevels keccak fuel (levelUp keccak ns) (i / 2)) := by
        unfold verifyProof
        rw [List.foldl_append]
        congr 1
        rw [levelUp_getD]
        by_cases hp : i % 2 = 1
        · rw [if_pos hp, if_pos (by omega), show 2 * (i / 2) + 1 = i by omega,
            show 2 * (i / 2) = i - 1 by omega]
          simp only [List.foldl_cons, List.foldl_nil]
          rw [combinePair_comm]
        · rw [if_neg hp]
          by_cases hlast : i + 1 < ns.length
          · rw [if_pos hlast, if_pos (by omega), show 2 * (i / 2) + 1 = i + 1 by omega,
              show 2 * (i / 2) = i by omega]
            simp only [List.foldl_cons, List.foldl_nil]
          · rw [if_neg hlast, if_neg (by omega), show 2 * (i / 2) = i by omega]
            simp only [List.foldl_nil]
      rw [hstep]
      exact ih (levelUp keccak ns) (i / 2)
        (by rw [levelUp_length]; omega)
        (by rw [levelUp_length]; omega)

theorem indexOf_lt_getD : ∀ (l : List Bytes) (x : Bytes), x ∈ l →
    l.indexOf x < l.length ∧ l.getD (l.indexOf x) [] = x
  | a :: as, x, h => by
    by_cases hx : a = x
    · subst hx
      refine ⟨?_, ?_⟩ <;>
        simp [List.indexOf, List.findIdx_cons]
    · have hmem : x ∈ as := by
        rcases List.mem_cons.1 h with h1 | h1
        · exact absurd h1.symm hx
        · exact h1
      have ih := indexOf_lt_getD as x hmem
      have ih1 := ih.1
      have ih2 := ih.2
      have hne : (a == x) = false := beq_false_of_ne hx
      simp only [List.indexOf] at ih1 ih2 ⊢
      rw [List.findIdx_cons, hne, cond_false]
      refine ⟨by simpa using Nat.succ_lt_succ ih1, ?_⟩
      simpa using ih2

/-- Claim C2: for every non-empty eligibility set and every leaf in it, the
inclusion proof the accumulator builder generates for that leaf, folded with
the leaf by sorted-pair hashing, recomputes exactly the root the builder
returns for that set. -/
theorem merkle_proof_recomputes_builder_root (keccak : Bytes → Bytes)
    (leaves : List Bytes) (leaf r : Bytes)
    (hmem : leaf ∈ leaves)
    (hbuilt : computeGlobalTree keccak (some leaves) = .built leaves r) :
    verifyProof keccak leaf (getHexProof keccak leaves leaf) = r := by
  have hr : r = merkleRoot keccak leaves := by
    simpa [computeGlobalTree] using hbuilt.symm
  subst hr
  obtain ⟨hi, hget⟩ := indexOf_lt_getD leaves leaf hmem
  have h := proofLevels_root keccak leaves.length leaves (leaves.indexOf leaf)
    (by omega) hi
  rw [hget] at h
  exact h

/-- Witness for C2: the concrete leaf leafT of the concrete three-element
eligibility set leavesT folds through its generated proof back to the root
the builder returns. -/
theorem merkle_proof_recomputes_builder_root_check :
    leafT ∈ leavesT ∧ verifyProof kToy leafT (getHexProof kToy leavesT leafT) = rootT :=
  ⟨by decide,
    merkle_proof_recomputes_builder_root kToy leavesT leafT rootT (by decide) (by decide)⟩

/-- Claim C8: the intermediate base-nullifier value equals the leaf byte for
byte (both are hash(salt, hash(identityKey))), so the submitted nullifier
equals hash(electionId, leaf) and is computable from the public leaf and the
election id alone. -/
theorem base_nullifier_is_leaf (keccak : Bytes → Bytes) (salt : Bytes) (dni : String)
    (eId : Nat) :
    baseNull keccak salt dni = leafOf keccak salt dni ∧
    nullifierOf keccak eId salt dni = nullifierFromLeaf keccak eId (leafOf keccak salt dni) :=
  ⟨rfl, rfl⟩

/-- Counterexample for C7: on the empty eligibility set, computeGlobalTree
does not fail; it succeeds and returns the empty root. -/
theorem empty_set_builds_empty_root_counterexample :
    computeGlobalTree kToy (some []) = .built [] [] := by decide

/-- Claim C7 (amended): on an empty fetched eligibility set the accumulator
builder succeeds, returning the empty root (hex 0x); its only failure is a
failed registry fetch. No EmptyEligibilitySet error path exists. -/
theorem empty_set_no_failure (keccak : Bytes → Bytes) :
    computeGlobalTree keccak (some []) = .built [] [] ∧
    computeGlobalTree keccak none = .fetchFailed :=
  ⟨rfl, rfl⟩

set_option maxHeartbeats 1600000 in
/-- Claim C1: the nullifier the vote operation produces equals
hash(electionId, hash(salt, hash(identityKey))) with the identity key hashed
from its utf-8 bytes, in both handler variants, and the derivation is a
deterministic function of those inputs. -/
theorem nullifier_formula_and_deterministic (keccak : Bytes → Bytes) :
    (∀ (eId : Nat) (salt : Bytes) (dni : String),
      nullifierOf keccak eId salt dni = nullifierSpec keccak eId salt dni) ∧
    (∀ (env : VoteEnv) (v : VerifyResp) (s n : Bytes) (c : Nat) (p : List Bytes) (l : Bytes),
      env.verifyResp = some v → v.salt = some s →
      (voteHandler keccak env).outcome = .submitted n c p l →
      n = nullifierSpec keccak env.electionId s env.dni) ∧
    (∀ (env : SimpleVoteEnv) (v : VerifyResp) (s n : Bytes) (c : Nat),
      env.verifyResp = some v → v.salt = some s →
      (voteHandlerSimple keccak env).outcome = .submittedSimple n c →
      n = nullifierSpec keccak env.electionId s env.dni) := by
  refine ⟨fun _ _ _ => rfl, ?_, ?_⟩
  · intro env v s n c p l hv hs hout
    simp only [voteHandler, hv, hs] at hout
    repeat' split at hout
    all_goals simp_all [nullifierOf, nullifierSpec, baseNull, dniHash]
  · intro env v s n c hv hs hout
    simp only [voteHandlerSimple, hv, hs] at hout
    repeat' split at hout
    all_goals simp_all [nullifierOf, nullifierSpec, baseNull, dniHash]

/-- Witness for C1: the concrete successful environment submits exactly the
nullifier of the spec formula. -/
theorem nullifier_formula_check :
    (voteHandler kToy envOK).outcome =
      .submitted (nullifierOf kToy 1 saltT "ab") 2 (getHexProof kToy leavesT leafT) leafT ∧
    nullifierOf kToy 1 saltT "ab" = nullifierSpec kToy envOK.electionId saltT envOK.dni :=
  ⟨by decide,
    (nullifier_formula_and_deterministic kToy).2.1 envOK ⟨true, some saltT⟩ saltT
      (nullifierOf kToy 1 saltT "ab") 2 (getHexProof kToy leavesT leafT) leafT
      rfl rfl (by decide)⟩

/-- Claim C6: the index.js vote handler submits the constant zero hash as the
nullifier argument for every request; no per-voter, per-election nullifier is
derived by that variant. -/
theorem idx_vote_always_zero_nullifier (env : IdxVoteEnv) (n : Bytes) (c : Nat)
    (p : List Bytes) (l : Bytes)
    (h : (idxVoteHandler env).1 = .submitted n c p l) : n = zero32 := by
  unfold idxVoteHandler at h
  repeat' split at h
  all_goals simp_all

/-- Witness for C6: the concrete index.js environment submits with the zero
nullifier. -/
theorem idx_vote_always_zero_nullifier_check :
    (idxVoteHandler envIdx).1 = .submitted zero32 4 [[9]] leafT ∧ zero32 = zero32 :=
  ⟨by decide, idx_vote_always_zero_nullifier envIdx zero32 4 [[9]] leafT (by decide)⟩

/-- Claim C9: a vote request with an empty identity key is rejected by input
validation, before the registry is consulted, before any proof is built, and
before any ledger transaction, in both handler variants. -/
theorem empty_identity_rejected_first (keccak : Bytes → Bytes) (env : VoteEnv)
    (env2 : SimpleVoteEnv) (h : env.dni = "") (h2 : env2.dni = "") :
    voteHandler keccak env = ⟨.inputError, false, false, 0⟩ ∧
    voteHandlerSimple keccak env2 = ⟨.inputError, false, false, 0⟩ := by
  constructor
  · unfold voteHandler
    match env.candidateId with
    | none => rfl
    | some cid => simp [h]
  · unfold voteHandlerSimple
    match env2.candidateId with
    | none => rfl
    | some cid => simp [h2]

/-- Witness for C9: concrete requests with an empty identity key are
rejected with no registry call and no chain write. -/
theorem empty_identity_rejected_first_check :
    voteHandler kToy envEmptyDni = ⟨.inputError, false, false, 0⟩ ∧
    voteHandlerSimple kToy envSimpleEmptyDni = ⟨.inputError, false, false, 0⟩ :=
  empty_identity_rejected_first kToy envEmptyDni envSimpleEmptyDni rfl rfl

set_option maxHeartbeats 1600000 in
/-- Claim C3: for a vote request that has passed verification and membership,
a zero or absent persisted root is rejected as root-not-set, a persisted root
unequal to the locally computed root is rejected as a state inconsistency
with no submission regardless of proof validity, and an equal persisted root
lets processing proceed to submission. -/
theorem root_reconciliation_gate (keccak : Bytes → Bytes) (env : VoteEnv)
    (v : VerifyResp) (s : Bytes) (cid : Nat) (leaves : List Bytes)
    (hdni : env.dni ≠ "") (hfp : env.fingerprint ≠ "")
    (hcid : env.candidateId = some cid) (hdep : env.contractDeployed = true)
    (hv : env.verifyResp = some v) (hm : v.matched = true) (hs : v.salt = some s)
    (hl : env.leavesResp = some leaves)
    (hmem : leaves.contains (leafOf keccak s env.dni) = true)
    (heid : env.electionId ≠ 0)
    (hsup : env.hasMerkleRootOf = true ∨ env.hasSetRoot = true) :
    (onchainRootView env = zero32 →
      voteHandler keccak env = ⟨.rootNotSet, true, true, 0⟩) ∧
    (onchainRootView env ≠ zero32 → onchainRootView env ≠ merkleRoot keccak leaves →
      voteHandler keccak env = ⟨.rootMismatch, true, true, 0⟩) ∧
    (onchainRootView env ≠ zero32 → onchainRootView env = merkleRoot keccak leaves →
      (env.hasHasVoted = true →
        env.hasVoted env.electionId (nullifierOf keccak env.electionId s env.dni) = false) →
      env.hasVoteWithNullifier = true →
      voteHandler keccak env =
        ⟨.submitted (nullifierOf keccak env.electionId s env.dni) cid
            (getHexProof keccak leaves (leafOf keccak s env.dni))
            (leafOf keccak s env.dni), true, true, 1⟩) := by
  have hmem' : leafOf keccak s env.dni ∈ leaves := by simpa using hmem
  refine ⟨?_, ?_, ?_⟩
  · intro hz
    rcases hsup with hsupp | hsupp <;>
      simp [voteHandler, hcid, hv, hs, hl, hdni, hfp, hdep, hm, hmem', heid, hsupp, hz]
  · intro h1 h2
    rcases hsup with hsupp | hsupp <;>
      simp [voteHandler, hcid, hv, hs, hl, hdni, hfp, hdep, hm, hmem', heid, hsupp, h1, h2]
  · intro h1 heq hdup hfn
    have h1' : merkleRoot keccak leaves ≠ zero32 := heq ▸ h1
    have hv2 : env.hasHasVoted = false ∨
        env.hasVoted env.electionId (nullifierOf keccak env.electionId s env.dni) = false := by
      rcases Bool.eq_false_or_eq_true env.hasHasVoted with hh | hh
      · exact Or.inr (hdup hh)
      · exact Or.inl hh
    rcases hsup with hsupp | hsupp <;> rcases hv2 with hh | hh <;>
      simp [voteHandler, hcid, hv, hs, hl, hdni, hfp, hdep, hm, hmem', heid, hsupp,
        h1, h1', heq, hh, hfn]

/-- Witness for C3: the concrete successful environment, whose persisted root
equals the computed root, proceeds all the way to submission. -/
theorem root_reconciliation_gate_check :
    voteHandler kToy envOK =
      ⟨.submitted (nullifierOf kToy 1 saltT "ab") 2
        (getHexProof kToy leavesT (leafOf kToy saltT "ab")) (leafOf kToy saltT "ab"),
        true, true, 1⟩ :=
  (root_reconciliation_gate kToy envOK ⟨true, some saltT⟩ saltT 2 leavesT
      (by decide) (by decide) rfl rfl rfl rfl rfl rfl (by decide) (by decide)
      (Or.inl rfl)).2.2 (by decide) (by decide) (by decide) rfl

set_option maxHeartbeats 1600000 in
/-- Claim C4: every failure before submission is terminal with no
state-mutating ledger call, in both handler variants; the number of chain
writes is one exactly on a submitted outcome and zero otherwise, and a
registry match:false answer ends the request as an authentication failure
with no proof built and no chain write. -/
theorem failures_before_submission_no_chain_call (keccak : Bytes → Bytes) :
    (∀ env : VoteEnv, (voteHandler keccak env).chainWrites =
      (if isSubmission (voteHandler keccak env).outcome then 1 else 0)) ∧
    (∀ env : SimpleVoteEnv, (voteHandlerSimple keccak env).chainWrites =
      (if isSubmission (voteHandlerSimple keccak env).outcome then 1 else 0)) ∧
    (∀ (env : VoteEnv) (v : VerifyResp) (cid : Nat),
      env.candidateId = some cid → env.dni ≠ "" → env.fingerprint ≠ "" →
      env.contractDeployed = true → env.verifyResp = some v → v.matched = false →
      voteHandler keccak env = ⟨.authFailure, true, false, 0⟩) ∧
    (∀ (env : SimpleVoteEnv) (v : VerifyResp) (cid : Nat),
      env.candidateId = some cid → env.dni ≠ "" → env.fingerprint ≠ "" →
      env.contractDeployed = true → env.verifyResp = some v → v.matched = false →
      voteHandlerSimple keccak env = ⟨.authFailure, true, false, 0⟩) := by
  refine ⟨?_, ?_, ?_, ?_⟩
  · intro env
    obtain ⟨dni, fp, cid, dep, vr, lr, eid, hmr, hsr, hhv, hvn, mro, hvt⟩ := env
    cases cid with
    | none => rfl
    | some c =>
    dsimp only [voteHandler]
    by_cases h1 : (decide (dni = "") || decide (fp = "")) = true
    · rw [if_pos h1]; rfl
    · rw [if_neg h1]
      by_cases h2 : (!dep) = true
      · rw [if_pos h2]; rfl
      · rw [if_neg h2]
        cases vr with
        | none => rfl
        | some v =>
        obtain ⟨vm, vs⟩ := v
        dsimp only
        by_cases h3 : (!vm) = true
        · rw [if_pos h3]; rfl
        · rw [if_neg h3]
          cases vs with
          | none => rfl
          | some s =>
          dsimp only
          cases lr with
          | none => rfl
          | some leaves =>
          dsimp only
          by_cases h4 : (!leaves.contains (leafOf keccak s dni)) = true
          · rw [if_pos h4]; rfl
          · rw [if_neg h4]
            by_cases h5 : eid = 0
            · rw [if_pos h5]; rfl
            · rw [if_neg h5]
              by_cases h6 : (!hmr && !hsr) = true
              · rw [if_pos h6]; rfl
              · rw [if_neg h6]
                by_cases h7 : onchainRootView
                    ⟨dni, fp, some c, dep, some ⟨vm, some s⟩, some leaves, eid,
                      hmr, hsr, hhv, hvn, mro, hvt⟩ = zero32
                · rw [if_pos h7]; rfl
                · rw [if_neg h7]
                  by_cases h8 : onchainRootView
                      ⟨dni, fp, some c, dep, some ⟨vm, some s⟩, some leaves, eid,
                        hmr, hsr, hhv, hvn, mro, hvt⟩ ≠ merkleRoot keccak leaves
                  · rw [if_pos h8]; rfl
                  · rw [if_neg h8]
                    by_cases h9 : (hhv && hvt eid (nullifierOf keccak eid s dni)) = true
                    · rw [if_pos h9]; rfl
                    · rw [if_neg h9]
                      by_cases h10 : (!hvn) = true
                      · rw [if_pos h10]; rfl
                      · rw [if_neg h10]; rfl
  · intro env
    obtain ⟨dni, fp, cid, dep, vr, eid, hhv, hvt, hvs⟩ := env
    cases cid with
    | none => rfl
    | some c =>
    dsimp only [voteHandlerSimple]
    by_cases h1 : (decide (dni = "") || decide (fp = "")) = true
    · rw [if_pos h1]; rfl
    · rw [if_neg h1]
      by_cases h2 : (!dep) = true
      · rw [if_pos h2]; rfl
      · rw [if_neg h2]
        cases vr with
        | none => rfl
        | some v =>
        obtain ⟨vm, vs⟩ := v
        dsimp only
        by_cases h3 : (!vm) = true
        · rw [if_pos h3]; rfl
        · rw [if_neg h3]
          cases vs with
          | none => rfl
          | some s =>
          dsimp only
          by_cases h9 : (hhv && hvt eid (nullifierOf keccak eid s dni)) = true
          · rw [if_pos h9]; rfl
          · rw [if_neg h9]
            by_cases h10 : (!hvs) = true
            · rw [if_pos h10]; rfl
            · rw [if_neg h10]; rfl
  · intro env v cid hcid hdni hfp hdep hv hm
    simp [voteHandler, hcid, hv, hdni, hfp, hdep, hm]
  · intro env v cid hcid hdni hfp hdep hv hm
    simp [voteHandlerSimple, hcid, hv, hdni, hfp, hdep, hm]

/-- Witness for C4: the concrete match:false environments end as
authentication failures with no proof and no chain write. -/
theorem failures_before_submission_no_chain_call_check :
    voteHandler kToy envAuthFail = ⟨.authFailure, true, false, 0⟩ ∧
    voteHandlerSimple kToy envSimpleAuthFail = ⟨.authFailure, true, false, 0⟩ :=
  ⟨(failures_before_submission_no_chain_call kToy).2.2.1 envAuthFail ⟨false, none⟩ 2
      rfl (by decide) (by decide) rfl rfl rfl,
    (failures_before_submission_no_chain_call kToy).2.2.2 envSimpleAuthFail ⟨false, none⟩ 3
      rfl (by decide) (by decide) rfl rfl rfl⟩

/-- Counterexample for C10: with the contract missing the proof-carrying
voteWithNullifier signature, the error is produced inside the per-request
vote handler, after the registry has been called and the proof built, not at
startup; the startup path performs no signature check. -/
theorem unsupported_vote_signature_counterexample :
    voteHandler kToy envNoVoteFn = ⟨.unsupportedVoteFn, true, true, 0⟩ := by decide

set_option maxHeartbeats 1600000 in
/-- Claim C10 (amended): when the deployed contract exposes no known
vote-submission signature, every vote request that reaches the submission
step fails with an unsupported-contract error and no submission is
attempted; the check runs per request, after registry verification, not at
startup or only on first use. -/
theorem unsupported_vote_signature_per_request (keccak : Bytes → Bytes) (env : VoteEnv)
    (v : VerifyResp) (s : Bytes) (cid : Nat) (leaves : List Bytes)
    (hdni : env.dni ≠ "") (hfp : env.fingerprint ≠ "")
    (hcid : env.candidateId = some cid) (hdep : env.contractDeployed = true)
    (hv : env.verifyResp = some v) (hm : v.matched = true) (hs : v.salt = some s)
    (hl : env.leavesResp = some leaves)
    (hmem : leaves.contains (leafOf keccak s env.dni) = true)
    (heid : env.electionId ≠ 0)
    (hsup : env.hasMerkleRootOf = true ∨ env.hasSetRoot = true)
    (h1 : onchainRootView env ≠ zero32)
    (heq : onchainRootView env = merkleRoot keccak leaves)
    (hdup : env.hasHasVoted = true →
      env.hasVoted env.electionId (nullifierOf keccak env.electionId s env.dni) = false)
    (hfn : env.hasVoteWithNullifier = false) :
    voteHandler keccak env = ⟨.unsupportedVoteFn, true, true, 0⟩ := by
  have hmem' : leafOf keccak s env.dni ∈ leaves := by simpa using hmem
  have h1' : merkleRoot keccak leaves ≠ zero32 := heq ▸ h1
  have hv2 : env.hasHasVoted = false ∨
      env.hasVoted env.electionId (nullifierOf keccak env.electionId s env.dni) = false := by
    rcases Bool.eq_false_or_eq_true env.hasHasVoted with hh | hh
    · exact Or.inr (hdup hh)
    · exact Or.inl hh
  rcases hsup with hsupp | hsupp <;> rcases hv2 with hh | hh <;>
    simp [voteHandler, hcid, hv, hs, hl, hdni, hfp, hdep, hm, hmem', heid, hsupp,
      h1, h1', heq, hh, hfn]

/-- Witness for C10 (amended): a concrete request against a contract without
the signature ends with the unsupported-contract error and zero writes. -/
theorem unsupported_vote_signature_per_request_check :
    voteHandler kToy envNoVoteFn = ⟨.unsupportedVoteFn, true, true, 0⟩ ∧
    (voteHandler kToy envNoVoteFn).registryCalled = true :=
  ⟨unsupported_vote_signature_per_request kToy envNoVoteFn ⟨true, some saltT⟩ saltT 2
      leavesT (by decide) (by decide) rfl rfl rfl rfl rfl rfl (by decide) (by decide)
      (Or.inl rfl) (by decide) (by decide) (by decide) rfl,
    by decide⟩

/-- Counterexample for C5: in the merkle server variant, even when the
persisted on-chain root already equals the locally computed root, the admin
sync operation still sends a state-mutating publish transaction instead of
reporting a no-op. -/
theorem sync_root_not_idempotent_counterexample :
    envSyncEq.merkleRootOf envSyncEq.electionId = merkleRoot kToy leavesT ∧
    syncRootMerkle kToy envSyncEq = (.published (merkleRoot kToy leavesT), 1) := by decide

/-- Claim C5 (amended): only the index.js variant of the admin root
publication is idempotent, skipping the transaction and reporting
synced:false when the persisted root equals the registry root and publishing
otherwise; the merkle server variant publishes the computed root
unconditionally, even when it already equals the persisted root. -/
theorem sync_root_variant_behavior :
    (∀ (env : SyncEnv) (r : Bytes), env.electionId ≠ 0 → env.rnpRoot = some r →
      (env.merkleRootOf env.electionId = r → syncRootIndex env = (.noopAlreadySynced r, 0)) ∧
      (env.merkleRootOf env.electionId ≠ r → syncRootIndex env = (.published r, 1))) ∧
    (∀ (keccak : Bytes → Bytes) (env : SyncEnv) (leaves : List Bytes),
      env.contractDeployed = true → env.electionId ≠ 0 → env.leavesResp = some leaves →
      env.hasSetRoot = true →
      syncRootMerkle keccak env = (.published (merkleRoot keccak leaves), 1)) := by
  constructor
  · intro env r heid hr
    constructor
    · intro he
      simp [syncRootIndex, heid, hr, he]
    · intro hne
      simp [syncRootIndex, heid, hr, hne]
  · intro keccak env leaves hdep heid hl hset
    simp [syncRootMerkle, hdep, heid, hl, hset]

/-- Witness for C5 (amended): the index.js variant no-ops on the concrete
already-synced environment and publishes on the concrete divergent one,
while the merkle variant publishes even on the already-synced one. -/
theorem sync_root_variant_behavior_check :
    syncRootIndex envSyncEq = (.noopAlreadySynced rootT, 0) ∧
    syncRootIndex envSyncNe = (.published rootT, 1) ∧
    syncRootMerkle kToy envSyncEq = (.published (merkleRoot kToy leavesT), 1) :=
  ⟨(sync_root_variant_behavior.1 envSyncEq rootT (by decide) rfl).1 rfl,
    (sync_root_variant_behavior.1 envSyncNe rootT (by decide) rfl).2 (by decide),
    sync_root_variant_behavior.2 kToy envSyncEq leavesT rfl (by decide) rfl rfl⟩

end ElectionsRelayer
